import Mathlib

/-!
Shallow embedding of the marketplace presentation components:
the `FeaturedSection` carousel controller (circular slide index,
indicator strip, card-click navigation) and the `AgentTableRow`
runs/rating cells.  Definitions are translated from the TypeScript
source; machine numbers are modelled as `Int` / `Nat` / `Rat`.
-/

/-- A featured agent record, as declared by `interface FeaturedAgent`
in FeaturedSection.  `runs` is a non-negative integer, `rating` a
decimal number (modelled as `Rat`). -/
structure FeaturedAgent where
  slug : String
  agent_name : String
  agent_image : String
  creator : String
  creator_avatar : String
  sub_heading : String
  description : String
  runs : Nat
  rating : Rat
deriving DecidableEq, Repr

/-- The props of `FeaturedSection`: the interface declares exactly one
member, `featuredAgents` (no `onCardClick`). -/
structure FeaturedSectionProps where
  featuredAgents : List FeaturedAgent
deriving DecidableEq, Repr

/-- Model of `handleNextSlide`:
`setCurrentSlide(prev => prev === featuredAgents.length - 1 ? 0 : prev + 1)`.
`N` is `featuredAgents.length`; the JS number `prev` is an `Int` and the
comparison is with `N - 1` computed in `Int` (so for `N = 0` it compares
with `-1`, exactly as the JS does). -/
def handleNextSlide (N : Nat) (prev : Int) : Int :=
  if prev = (N : Int) - 1 then 0 else prev + 1

/-- Model of `handlePrevSlide`:
`setCurrentSlide(prev => prev === 0 ? featuredAgents.length - 1 : prev - 1)`. -/
def handlePrevSlide (N : Nat) (prev : Int) : Int :=
  if prev = 0 then (N : Int) - 1 else prev - 1

/-- The two navigation operations that are the only writers of
`currentSlide` in the source (`setCurrentSlide` occurs nowhere else). -/
inductive NavOp where
  | next
  | prev
deriving DecidableEq, Repr

/-- One navigation step of the carousel controller. -/
def navStep (N : Nat) (i : Int) (op : NavOp) : Int :=
  match op with
  | NavOp.next => handleNextSlide N i
  | NavOp.prev => handlePrevSlide N i

/-- The index reached from the mount-time initial state
(`useState(0)`) after a sequence of navigation clicks. -/
def navRun (N : Nat) (ops : List NavOp) : Int :=
  ops.foldl (navStep N) 0

/-- Effects a click handler can perform: a `router.push(path)` call,
or an invocation of a parent-supplied `onCardClick` callback. -/
inductive Effect where
  | push (path : String)
  | parentCallback (agentName : String)
deriving DecidableEq, Repr

/-- Model of `handleCardClick` in FeaturedSection:
`router.push(` the template literal `/store/agent/` followed by the
creator, a slash, and the slug `)`. -/
def handleCardClick (creator slug : String) : Effect :=
  Effect.push ("/store/agent/" ++ creator ++ "/" ++ slug)

/-- Effects of clicking the card rendered for agent `a`:
`onClick={() => handleCardClick(agent.creator, agent.slug)}` — the one
and only effect is the router push; no parent callback exists. -/
def featuredCardOnClick (a : FeaturedAgent) : List Effect :=
  [handleCardClick a.creator a.slug]

/-- One mark of the position indicator strip: the elongated
(`h-3 w-[52px]`) active mark, or a uniform dot. -/
inductive Mark where
  | active
  | dot
deriving DecidableEq, Repr

/-- The indicator strip: `featuredAgents.map((_, index) => ...)` with
the elongated class exactly when `currentSlide === index`. -/
def indicatorStrip (agents : List FeaturedAgent) (currentSlide : Int) : List Mark :=
  (List.range agents.length).map
    (fun (index : Nat) =>
      if currentSlide = (index : Int) then Mark.active else Mark.dot)

/-- Grouping of a little-endian digit-character list into blocks of
three separated by commas, the en-US grouping of `toLocaleString`. -/
def group3 : List Char → List Char
  | [] => []
  | [a] => [a]
  | [a, b] => [a, b]
  | [a, b, c] => [a, b, c]
  | a :: b :: c :: d :: rest => a :: b :: c :: ',' :: group3 (d :: rest)

/-- Little-endian base-10 digits of `n`, by repeated `% 10` / `/ 10`
(first argument is fuel; `n` itself is always enough fuel). -/
def digitsAux : Nat → Nat → List Nat
  | _, 0 => []
  | 0, _ + 1 => []
  | fuel + 1, n + 1 => (n + 1) % 10 :: digitsAux fuel ((n + 1) / 10)

/-- Little-endian base-10 digits of a positive `n` (empty for 0). -/
def digitsLE (n : Nat) : List Nat := digitsAux n n

/-- Model of `Number.prototype.toLocaleString` on a non-negative integer under
the en-US convention: decimal digits with thousands separators. -/
def toLocaleString (n : Nat) : String :=
  if n = 0 then "0"
  else String.mk ((group3 ((digitsLE n).map Nat.digitChar)).reverse)

/-- The runs cell of `AgentTableRow`:
`runs?.toLocaleString() ?? '—'` — optional chaining yields the dash
only when `runs` is nullish; a present `0` is formatted as a number. -/
def runsCell (runs : Option Nat) : String :=
  match runs with
  | some n => toLocaleString n
  | none => "—"

/-- The integer `⌊10q + 1/2⌋`, computed on the numerator and
denominator of `q` with integer floor division:
`⌊10q + 1/2⌋ = (20 num + den) / (2 den)`  (see `toFixed1Scaled_eq_floor`). -/
def toFixed1Scaled (q : Rat) : Int :=
  (20 * q.num + (q.den : Int)) / (2 * (q.den : Int))

/-- Model of `Number.prototype.toFixed(1)` on a non-negative rational: round
half up to one decimal, render as integer part, point, one digit. -/
def toFixed1 (q : Rat) : String :=
  toString (toFixed1Scaled q / 10)
    ++ "." ++ String.mk [Nat.digitChar (toFixed1Scaled q % 10).toNat]

/-- The rendered content of the rating cell of `AgentTableRow`. -/
inductive RatingCell where
  | dash
  | starred (text : String)
deriving DecidableEq, Repr

/-- The rating cell of `AgentTableRow`:
`rating ? (span with rating.toFixed(1) and IconStarFilled) : (span '—')`.
JS truthiness: `undefined` and `0` are falsy, so both take the dash
branch; any other number renders `toFixed(1)` next to the star glyph. -/
def ratingCell (rating : Option Rat) : RatingCell :=
  match rating with
  | none => RatingCell.dash
  | some r => if r = 0 then RatingCell.dash else RatingCell.starred (toFixed1 r)

section Sanity

example : handleNextSlide 3 0 = 1 := by decide
example : handleNextSlide 3 2 = 0 := by decide
example : handlePrevSlide 3 0 = 2 := by decide
example : handleNextSlide 0 0 = 1 := by decide
example : handlePrevSlide 0 0 = -1 := by decide
example : toLocaleString 75000 = "75,000" := by decide
example : toLocaleString 0 = "0" := by decide
example : toLocaleString 1234567 = "1,234,567" := by decide
example : toFixed1 (mkRat 47 10) = "4.7" := by decide
example : toFixed1 0 = "0.0" := by decide
example : toFixed1 (mkRat 38 10) = "3.8" := by decide
example : toFixed1 (mkRat 45 10) = "4.5" := by decide
example : ratingCell (some (mkRat 47 10)) = RatingCell.starred "4.7" := by decide
example : ratingCell (some 0) = RatingCell.dash := by decide
example : runsCell (some 0) = "0" := by decide

end Sanity

/-! ### Helper lemmas about the slide controller -/

/-- On a non-empty collection, with the index in range, `handleNextSlide`
computes the successor modulo `N`. -/
theorem handleNextSlide_eq_emod (N : Nat) (i : Int) (hN : 0 < N) (h0 : 0 ≤ i)
    (hi : i < (N : Int)) : handleNextSlide N i = (i + 1) % (N : Int) := by
  unfold handleNextSlide
  rcases eq_or_ne i ((N : Int) - 1) with h | h
  · rw [if_pos h, h]
    have hc : (N : Int) - 1 + 1 = (N : Int) := by ring
    rw [hc, Int.emod_self]
  · rw [if_neg h, Int.emod_eq_of_lt (by omega) (by omega)]

/-- On a non-empty collection, with the index in range, `handlePrevSlide`
computes the predecessor modulo `N`, in the shifted form `(i - 1 + N) % N`. -/
theorem handlePrevSlide_eq_emod (N : Nat) (i : Int) (hN : 0 < N) (h0 : 0 ≤ i)
    (hi : i < (N : Int)) : handlePrevSlide N i = (i - 1 + (N : Int)) % (N : Int) := by
  unfold handlePrevSlide
  rcases eq_or_ne i 0 with h | h
  · rw [if_pos h, h]
    have hc : (0 : Int) - 1 + (N : Int) = (N : Int) - 1 := by ring
    rw [hc, Int.emod_eq_of_lt (by omega) (by omega)]
  · rw [if_neg h]
    have hc : i - 1 + (N : Int) = i - 1 + (N : Int) * 1 := by ring
    rw [hc, Int.add_mul_emod_self_left, Int.emod_eq_of_lt (by omega) (by omega)]

/-- Iterating `handleNextSlide` from an in-range index adds the iteration
count modulo `N`. -/
theorem handleNextSlide_iterate (N : Nat) (hN : 0 < N) :
    ∀ (k : Nat) (i : Int), 0 ≤ i → i < (N : Int) →
      (handleNextSlide N)^[k] i = (i + k) % (N : Int) := by
  intro k
  induction k with
  | zero =>
    intro i h0 hi
    simpa using (Int.emod_eq_of_lt h0 hi).symm
  | succ k ih =>
    intro i h0 hi
    rw [Function.iterate_succ_apply, handleNextSlide_eq_emod N i hN h0 hi]
    have hNz : (N : Int) ≠ 0 := by omega
    have h0' : 0 ≤ (i + 1) % (N : Int) := Int.emod_nonneg _ hNz
    have hi' : (i + 1) % (N : Int) < (N : Int) := Int.emod_lt_of_pos _ (by omega)
    rw [ih _ h0' hi', Int.emod_add_emod]
    congr 1
    push_cast
    ring

/-! ### Claims about the circular slide controller -/

/-- Claim C1: on every non-empty collection (`N ≥ 1`) with the index in
range, Advance (`handleNextSlide`) sets the index to `(i + 1) mod N` and
always succeeds.  The `N = 0` half of the claim fails on the code: the
source has no empty-collection guard, so from the initial index `0` the
handler compares `0` with `length - 1 = -1` and produces `1` instead of
being a no-op. -/
theorem advance_emod_and_empty_divergence :
    handleNextSlide 0 0 = 1
    ∧ ∀ (N : Nat) (i : Int), 0 < N → 0 ≤ i → i < (N : Int) →
        handleNextSlide N i = (i + 1) % (N : Int) :=
  ⟨by decide, fun N i hN h0 hi => handleNextSlide_eq_emod N i hN h0 hi⟩

/-- Witness for `advance_emod_and_empty_divergence` at `N = 3`, `i = 2`. -/
theorem advance_emod_and_empty_divergence_witness :
    handleNextSlide 3 2 = (2 + 1) % ((3 : Nat) : Int) :=
  advance_emod_and_empty_divergence.2 3 2 (by decide) (by decide) (by decide)

/-- Claim C2: on every non-empty collection (`N ≥ 1`) with the index in
range, Retreat (`handlePrevSlide`) sets the index to `(i - 1 + N) mod N`
(`N - 1` when `i = 0`, else `i - 1`).  The `N = 0` half of the claim
fails on the code: without an empty-collection guard, from the initial
index `0` the handler produces `length - 1 = -1` instead of being a
no-op. -/
theorem retreat_emod_and_empty_divergence :
    handlePrevSlide 0 0 = -1
    ∧ ∀ (N : Nat) (i : Int), 0 < N → 0 ≤ i → i < (N : Int) →
        handlePrevSlide N i = (i - 1 + (N : Int)) % (N : Int) :=
  ⟨by decide, fun N i hN h0 hi => handlePrevSlide_eq_emod N i hN h0 hi⟩

/-- Witness for `retreat_emod_and_empty_divergence` at `N = 3`, `i = 0`. -/
theorem retreat_emod_and_empty_divergence_witness :
    handlePrevSlide 3 0 = (0 - 1 + ((3 : Nat) : Int)) % ((3 : Nat) : Int) :=
  retreat_emod_and_empty_divergence.2 3 0 (by decide) (by decide) (by decide)

/-- Claim C3: for `N > 0` the mount-time initial index `0` satisfies
`0 ≤ index < N`, each single Advance/Retreat step preserves the
invariant from any state satisfying it, and therefore every click
sequence starting at mount stays in range.  (`setCurrentSlide` occurs in
the source only inside `handlePrevSlide` and `handleNextSlide`, so these
are the only mutations of the index.) -/
theorem current_index_invariant (N : Nat) (hN : 0 < N) :
    ((0 : Int) ≤ 0 ∧ (0 : Int) < (N : Int))
    ∧ (∀ (i : Int) (op : NavOp), 0 ≤ i → i < (N : Int) →
        0 ≤ navStep N i op ∧ navStep N i op < (N : Int))
    ∧ (∀ ops : List NavOp, 0 ≤ navRun N ops ∧ navRun N ops < (N : Int)) := by
  have hstep : ∀ (i : Int) (op : NavOp), 0 ≤ i → i < (N : Int) →
      0 ≤ navStep N i op ∧ navStep N i op < (N : Int) := by
    intro i op h0 hi
    cases op <;>
      simp only [navStep, handleNextSlide, handlePrevSlide] <;>
      split <;> omega
  refine ⟨⟨le_refl 0, by omega⟩, hstep, ?_⟩
  intro ops
  suffices h : ∀ (l : List NavOp) (i : Int), 0 ≤ i → i < (N : Int) →
      0 ≤ l.foldl (navStep N) i ∧ l.foldl (navStep N) i < (N : Int) by
    simpa only [navRun] using h ops 0 (le_refl 0) (by omega)
  intro l
  induction l with
  | nil => intro i h0 hi; exact ⟨h0, hi⟩
  | cons op rest ih =>
    intro i h0 hi
    rcases hstep i op h0 hi with ⟨h0', hi'⟩
    exact ih _ h0' hi'

/-- Witness for `current_index_invariant` at `N = 3` and the click
sequence next, next, prev. -/
theorem current_index_invariant_witness :
    0 ≤ navRun 3 [NavOp.next, NavOp.next, NavOp.prev]
    ∧ navRun 3 [NavOp.next, NavOp.next, NavOp.prev] < ((3 : Nat) : Int) :=
  (current_index_invariant 3 (by decide)).2.2 [NavOp.next, NavOp.next, NavOp.prev]

/-- Claim C4: for `N ≥ 1` and any in-range index `i`, Advance followed by
Retreat returns to `i` (Retreat is a left inverse of Advance). -/
theorem retreat_inverts_advance (N : Nat) (i : Int) (hN : 1 ≤ N) (h0 : 0 ≤ i)
    (hi : i < (N : Int)) : handlePrevSlide N (handleNextSlide N i) = i := by
  unfold handleNextSlide handlePrevSlide
  rcases eq_or_ne i ((N : Int) - 1) with h | h
  · rw [if_pos h, if_pos rfl]
    omega
  · rw [if_neg h, if_neg (by omega)]
    omega

/-- Witness for `retreat_inverts_advance` at `N = 3`, `i = 1`. -/
theorem retreat_inverts_advance_witness :
    handlePrevSlide 3 (handleNextSlide 3 1) = 1 :=
  retreat_inverts_advance 3 1 (by decide) (by decide) (by decide)

/-- Claim C5: for `N ≥ 1` and any in-range index `i`, applying Advance
exactly `N` times returns the index to `i` (cyclic closure). -/
theorem advance_n_times_cycles (N : Nat) (i : Int) (hN : 1 ≤ N) (h0 : 0 ≤ i)
    (hi : i < (N : Int)) : (handleNextSlide N)^[N] i = i := by
  rw [handleNextSlide_iterate N (by omega) N i h0 hi]
  have hc : i + (N : Int) = i + (N : Int) * 1 := by ring
  rw [hc, Int.add_mul_emod_self_left, Int.emod_eq_of_lt h0 hi]

/-- Witness for `advance_n_times_cycles` at `N = 3`, `i = 2`. -/
theorem advance_n_times_cycles_witness :
    (handleNextSlide 3)^[3] 2 = 2 :=
  advance_n_times_cycles 3 2 (by decide) (by decide) (by decide)


/-! ### Claims about indicator rendering and click wiring -/

/-- Claim C6: the indicator strip renders exactly one mark per collection
element, in order; the mark at position `i` is the elongated (active)
one iff `i` equals the current index; for the empty collection no mark
is rendered. -/
theorem indicator_strip_marks (agents : List FeaturedAgent) (current : Int) :
    (indicatorStrip agents current).length = agents.length
    ∧ (∀ (i : Nat) (h : i < (indicatorStrip agents current).length),
        ((indicatorStrip agents current).get ⟨i, h⟩ = Mark.active ↔ (i : Int) = current))
    ∧ (agents = [] → indicatorStrip agents current = []) := by
  refine ⟨by simp only [indicatorStrip, List.length_map, List.length_range], ?_, ?_⟩
  · intro i h
    simp only [List.get_eq_getElem, indicatorStrip, List.getElem_map, List.getElem_range]
    rcases eq_or_ne current (i : Int) with hc | hc
    · rw [if_pos hc]
      exact iff_of_true rfl hc.symm
    · rw [if_neg hc]
      exact iff_of_false (by decide) (Ne.symm hc)
  · intro h
    subst h
    rfl

/-- Witness for `indicator_strip_marks`: the empty collection renders no
indicator mark. -/
theorem indicator_strip_marks_witness : indicatorStrip [] 0 = [] :=
  (indicator_strip_marks [] 0).2.2 rfl

/-- Claim C7: selecting an item with creator `c` and slug `s` invokes the
navigation sink with exactly the path `"/store/agent/" ++ c ++ "/" ++ s`;
the handler wired on the card of agent `a` performs exactly this push,
and the creator "WordCraft AI" yields a path starting
`/store/agent/WordCraft AI/`. -/
theorem card_click_navigation_path (c s : String) (a : FeaturedAgent) :
    handleCardClick c s = Effect.push ("/store/agent/" ++ c ++ "/" ++ s)
    ∧ featuredCardOnClick a
        = [Effect.push ("/store/agent/" ++ a.creator ++ "/" ++ a.slug)]
    ∧ handleCardClick "WordCraft AI" s
        = Effect.push ("/store/agent/WordCraft AI/" ++ s) := by
  refine ⟨rfl, rfl, ?_⟩
  have hlit : ("/store/agent/" ++ "WordCraft AI" ++ "/" : String)
      = "/store/agent/WordCraft AI/" := by decide
  show Effect.push ("/store/agent/" ++ "WordCraft AI" ++ "/" ++ s) = _
  rw [hlit]

/-- Claim C10: `FeaturedSectionProps` declares only `featuredAgents`
(its props are fully determined by the agent list — there is no
`onCardClick` member), and a card selection produces exactly one router
push and never a parent-callback invocation, so the `onCardClick` the
marketplace Page passes is unreachable through this component. -/
theorem featured_section_ignores_parent_callback :
    (∀ p q : FeaturedSectionProps, p.featuredAgents = q.featuredAgents → p = q)
    ∧ ∀ (a : FeaturedAgent),
        featuredCardOnClick a
          = [Effect.push ("/store/agent/" ++ a.creator ++ "/" ++ a.slug)]
        ∧ ∀ s, Effect.parentCallback s ∉ featuredCardOnClick a := by
  constructor
  · intro p q h
    cases p
    cases q
    simpa using h
  · intro a
    refine ⟨rfl, ?_⟩
    intro s hmem
    simp [featuredCardOnClick, handleCardClick] at hmem

/-- Witness for `featured_section_ignores_parent_callback` on concrete
props. -/
theorem featured_section_ignores_parent_callback_witness :
    FeaturedSectionProps.mk [] = FeaturedSectionProps.mk [] :=
  featured_section_ignores_parent_callback.1 _ _ rfl

/-- Witness for `card_click_navigation_path` at the storybook creator
and a concrete slug. -/
theorem card_click_navigation_path_witness :
    handleCardClick "AI Solutions Inc." "seo-optimizer"
      = Effect.push ("/store/agent/" ++ "AI Solutions Inc." ++ "/" ++ "seo-optimizer") :=
  (card_click_navigation_path "AI Solutions Inc." "seo-optimizer"
    ⟨"seo-optimizer", "SEO Optimizer Pro", "img.png", "AI Solutions Inc.",
      "avatar.png", "sub", "desc", 50000, mkRat 47 10⟩).1

/-! ### Helper lemmas about the row-cell formatting -/

/-- Every character of the grouped digit list comes from the input list
or is a comma. -/
theorem mem_group3 (ch : Char) : ∀ (l : List Char), ch ∈ group3 l → ch ∈ l ∨ ch = ','
  | [], h => absurd h (by simp [group3])
  | [a], h => Or.inl (by simpa [group3] using h)
  | [a, b], h => Or.inl (by simpa [group3] using h)
  | [a, b, c], h => Or.inl (by simpa [group3] using h)
  | a :: b :: c :: d :: rest, h => by
    simp only [group3, List.mem_cons] at h
    rcases h with h | h | h | h | h
    · exact Or.inl (by simp [h])
    · exact Or.inl (by simp [h])
    · exact Or.inl (by simp [h])
    · exact Or.inr h
    · rcases mem_group3 ch (d :: rest) h with h2 | h2
      · exact Or.inl (by simp only [List.mem_cons] at h2 ⊢; tauto)
      · exact Or.inr h2

/-- Every entry produced by the digit extractor is a base-10 digit. -/
theorem digitsAux_lt_ten : ∀ (fuel n : Nat), ∀ d ∈ digitsAux fuel n, d < 10
  | _, 0, d, hd => absurd hd (by simp [digitsAux])
  | 0, _ + 1, d, hd => absurd hd (by simp [digitsAux])
  | fuel + 1, n + 1, d, hd => by
    simp only [digitsAux, List.mem_cons] at hd
    rcases hd with h | h
    · subst h
      exact Nat.mod_lt _ (by omega)
    · exact digitsAux_lt_ten fuel ((n + 1) / 10) d h

/-- The glyph of a base-10 digit is never the em-dash. -/
theorem digitChar_ne_emdash (d : Nat) (hd : d < 10) : Nat.digitChar d ≠ '—' := by
  interval_cases d <;> decide

/-- A formatted run count is never the em-dash placeholder. -/
theorem toLocaleString_ne_dash (n : Nat) : toLocaleString n ≠ "—" := by
  unfold toLocaleString
  split
  · decide
  · intro hEq
    have hdata : (group3 ((digitsLE n).map Nat.digitChar)).reverse = ['—'] :=
      congrArg String.data hEq
    have hmem : '—' ∈ (group3 ((digitsLE n).map Nat.digitChar)).reverse := by
      rw [hdata]
      exact List.mem_singleton.mpr rfl
    rw [List.mem_reverse] at hmem
    rcases mem_group3 '—' _ hmem with h | h
    · rw [List.mem_map] at h
      obtain ⟨d, hd, hdc⟩ := h
      exact digitChar_ne_emdash d (digitsAux_lt_ten n n d hd) hdc
    · exact absurd h (by decide)

/-- The integer computed by `toFixed1Scaled` is exactly `⌊10q + 1/2⌋`,
the scaled round-half-up of the rating. -/
theorem toFixed1Scaled_eq_floor (q : Rat) : toFixed1Scaled q = ⌊q * 10 + 1 / 2⌋ := by
  have hden0 : (q.den : Rat) ≠ 0 := Nat.cast_ne_zero.mpr q.den_nz
  have hq : q * 10 + 1 / 2
      = ((20 * q.num + (q.den : Int) : Int) : Rat) / ((2 * q.den : Nat) : Rat) := by
    conv_lhs => rw [← Rat.num_div_den q]
    push_cast
    field_simp
    ring
  unfold toFixed1Scaled
  rw [hq, Rat.floor_intCast_div_natCast]
  congr 1

/-! ### Claims about the AgentTableRow cells -/

/-- Counterexample to claim C8 as stated: a rating of `0` is present,
yet the cell renders the em-dash, not the one-decimal rounding `"0.0"`
with the star glyph — the dash branch fires on any falsy rating, not
only on an absent one. -/
theorem rating_zero_renders_dash :
    ratingCell (some 0) = RatingCell.dash
    ∧ ratingCell (some 0) ≠ RatingCell.starred (toFixed1 0)
    ∧ toFixed1 0 = "0.0" := by decide

/-- Claim C8 (amended): a present run count renders with en-US
thousands separators and an absent one as the em-dash; an absent rating
renders as the em-dash; a present nonzero rating renders rounded to
exactly one decimal place (an integer part, a point, one digit)
alongside the star glyph; a present rating of `0` also renders as the
em-dash. -/
theorem agent_row_cells_amended :
    runsCell none = "—"
    ∧ (∀ n : Nat, runsCell (some n) = toLocaleString n)
    ∧ toLocaleString 75000 = "75,000"
    ∧ ratingCell none = RatingCell.dash
    ∧ (∀ q : Rat, q ≠ 0 → ratingCell (some q) = RatingCell.starred (toFixed1 q))
    ∧ ratingCell (some (mkRat 47 10)) = RatingCell.starred "4.7"
    ∧ ratingCell (some 0) = RatingCell.dash
    ∧ ∀ q : Rat, ∃ (s : String) (d : Nat), d < 10
        ∧ toFixed1 q = s ++ "." ++ String.mk [Nat.digitChar d] := by
  refine ⟨rfl, fun n => rfl, by decide, rfl, ?_, by decide, by decide, ?_⟩
  · intro q hq
    simp [ratingCell, hq]
  · intro q
    refine ⟨toString (toFixed1Scaled q / 10), (toFixed1Scaled q % 10).toNat, ?_, rfl⟩
    have h1 : 0 ≤ toFixed1Scaled q % 10 := Int.emod_nonneg _ (by decide)
    have h2 : toFixed1Scaled q % 10 < 10 := Int.emod_lt_of_pos _ (by decide)
    omega

/-- Witness for `agent_row_cells_amended` at the storybook rating 3.8. -/
theorem agent_row_cells_amended_witness :
    ratingCell (some (mkRat 38 10)) = RatingCell.starred (toFixed1 (mkRat 38 10)) :=
  agent_row_cells_amended.2.2.2.2.1 (mkRat 38 10) (by decide)

/-- Claim C9: the two optional metrics are treated asymmetrically at
zero: `runs = 0` renders as `"0"` and the runs dash fires exactly when
`runs` is nullish, while the rating dash fires for any falsy rating —
absent or a present `0` — so a present rating of `0` is never shown as
`"0.0"` with the star. -/
theorem zero_runs_vs_zero_rating :
    runsCell (some 0) = "0"
    ∧ (∀ r : Option Nat, runsCell r = "—" ↔ r = none)
    ∧ ratingCell (some 0) = RatingCell.dash
    ∧ (∀ qo : Option Rat, ratingCell qo = RatingCell.dash ↔ (qo = none ∨ qo = some 0))
    ∧ ratingCell (some 0) ≠ RatingCell.starred "0.0" := by
  refine ⟨by decide, ?_, by decide, ?_, by decide⟩
  · intro r
    cases r with
    | none => simp [runsCell]
    | some n => simp [runsCell, toLocaleString_ne_dash n]
  · intro qo
    cases qo with
    | none => simp [ratingCell]
    | some q =>
      by_cases hq : q = 0
      · subst hq
        simp [ratingCell]
      · simp [ratingCell, hq]

/-- Witness for `zero_runs_vs_zero_rating` at a concrete run count. -/
theorem zero_runs_vs_zero_rating_witness :
    runsCell (some 75000) = "—" ↔ (some 75000 : Option Nat) = none :=
  zero_runs_vs_zero_rating.2.1 (some 75000)
